import Mathlib

/-!
Shallow embedding of `src/mnist_loader.py` (an IDX-format MNIST decoder).

A decompressed gzip stream is modelled as a `List Nat` of byte values.
`gz.read(k)` returns up to `k` bytes (`List.take k`) and advances the
cursor (`List.drop k`); it does not fail on short reads.

The Python functions `loadImages` and `loadLabels` wrap their body in
`try: ... finally: return res.reshape(...)`.  The `return` inside
`finally` runs on every exit path:
  * if the try body raised, the name `res` is unbound (the assignment to
    `res` is the last statement of the try body), so evaluating
    `res.reshape(...)` raises `NameError`, which replaces - masks - the
    original exception (the original is retained only as the implicit
    exception context).  We model this as `LoadErr.nameErr context`.
  * if the try body completed but `gz.read` returned fewer bytes than
    requested (truncated stream), `res.reshape((n_images, ...))` raises
    `ValueError` because the element count does not match; modelled as
    `LoadErr.valueErr`.
  * otherwise the reshaped array is returned.

numpy float64 values `0.0` and `1.0` in `vectorized_digit` are exactly
representable and are modelled as rationals.
-/

namespace Mnist

/-- Exceptions observable from a decoder invocation, by raise site:
* `badMagic` - `raise Exception('Invalid file: unexpected magic number.')`
  (lines 72 and 114); the message is a constant string carrying neither
  the expected nor the observed magic value;
* `cannotRead requested` - `raise Exception('Unable to read {0} entries
  from data file.'.format(n_images))` (lines 80 and 122); the message
  carries only the requested count, not the available count;
* `badDims` - `raise Exception('Invalid file: expected 28 rows & cols per img')`
  (line 87);
* `structShort` - `struct.error` from `struct.unpack` on fewer than 4 bytes;
* `nameErr context` - `NameError` raised by the `finally` block when `res`
  is unbound, masking the in-flight exception `context`;
* `valueErr` - `ValueError` from `res.reshape` when the byte count read is
  short of `n_images * rows * cols` (truncated stream);
* `indexErr` - numpy `IndexError` from `e[j] = 1.0` with `j` out of range
  in `vectorized_digit`. -/
inductive LoadErr where
  | badMagic : LoadErr
  | cannotRead (requested : Nat) : LoadErr
  | badDims : LoadErr
  | structShort : LoadErr
  | nameErr (context : LoadErr) : LoadErr
  | valueErr : LoadErr
  | indexErr : LoadErr
deriving DecidableEq

/-- Model of `struct.unpack('I', gz.read(4))` (line 62/111): native
little-endian byte order, per the source comment that the machine reads
least-significant byte first.  `none` models `struct.error` when fewer
than 4 bytes remain. -/
def readLE4 : List Nat → Option (Nat × List Nat)
  | b0 :: b1 :: b2 :: b3 :: rest =>
      some (((b3 * 256 + b2) * 256 + b1) * 256 + b0, rest)
  | _ => none

/-- Model of `struct.unpack('>I', gz.read(4))`: big-endian 32-bit read. -/
def readBE4 : List Nat → Option (Nat × List Nat)
  | b0 :: b1 :: b2 :: b3 :: rest =>
      some (((b0 * 256 + b1) * 256 + b2) * 256 + b3, rest)
  | _ => none

/-- `res.reshape((n, k))` partitions a flat byte buffer into `n` rows of
`k` bytes, in stream order. -/
def chunksOf (k : Nat) : Nat → List Nat → List (List Nat)
  | 0, _ => []
  | n + 1, l => l.take k :: chunksOf k n (l.drop k)

/-- Lines 83-95 of `loadImages`: read `n_rows` and `n_cols`, validate
them against 28, read `n_images * n_rows * n_cols` data bytes and
reshape.  A failed dimension check surfaces as `nameErr badDims`
(the `finally` block's `NameError` masking the raise); a short data read
surfaces as the reshape `ValueError`. -/
def loadImagesRest (n_images : Nat) (s2 : List Nat) :
    Except LoadErr (List (List Nat)) :=
  match readBE4 s2 with
  | none => .error (.nameErr .structShort)
  | some (n_rows, s3) =>
    match readBE4 s3 with
    | none => .error (.nameErr .structShort)
    | some (n_cols, s4) =>
      if n_rows ≠ 28 ∨ n_cols ≠ 28 then .error (.nameErr .badDims)
      else if (s4.take (n_images * n_rows * n_cols)).length =
          n_images * (n_rows * n_cols) then
        .ok (chunksOf (n_rows * n_cols) n_images (s4.take (n_images * n_rows * n_cols)))
      else .error .valueErr

/-- `loadImages` (lines 58-95).  The magic number is read with native
(little-endian) order and compared to `0x03080000`; then the declared
count `n` is read big-endian; the requested-count check (`n_images == None`
/ `n_images > n`, lines 76-80) happens BEFORE the rows/cols reads and the
dimension check (lines 83-87).  Every exception raised in the try body is
masked by the `finally` block into `nameErr`. -/
def loadImages (s : List Nat) (n_images : Option Nat) :
    Except LoadErr (List (List Nat)) :=
  match readLE4 s with
  | none => .error (.nameErr .structShort)
  | some (magic, s1) =>
    if magic ≠ 0x03080000 then .error (.nameErr .badMagic)
    else
      match readBE4 s1 with
      | none => .error (.nameErr .structShort)
      | some (n, s2) =>
        match n_images with
        | none => loadImagesRest n s2
        | some m =>
          if m > n then .error (.nameErr (.cannotRead m))
          else loadImagesRest m s2

/-- Lines 125-128 of `loadLabels`: read `n_images` label bytes and
reshape to `(n_images, 1)`; a short read surfaces as the reshape
`ValueError`. -/
def loadLabelsRest (n_images : Nat) (s2 : List Nat) :
    Except LoadErr (List (List Nat)) :=
  if (s2.take n_images).length = n_images * 1 then
    .ok (chunksOf 1 n_images (s2.take n_images))
  else .error .valueErr

/-- `loadLabels` (lines 109-128): mirrors `loadImages` with magic
`0x01080000` (little-endian view of big-endian `0x00000801`) and no
dimension fields. -/
def loadLabels (s : List Nat) (n_images : Option Nat) :
    Except LoadErr (List (List Nat)) :=
  match readLE4 s with
  | none => .error (.nameErr .structShort)
  | some (magic, s1) =>
    if magic ≠ 0x01080000 then .error (.nameErr .badMagic)
    else
      match readBE4 s1 with
      | none => .error (.nameErr .structShort)
      | some (n, s2) =>
        match n_images with
        | none => loadLabelsRest n s2
        | some m =>
          if m > n then .error (.nameErr (.cannotRead m))
          else loadLabelsRest m s2

/-- `vectorized_digit` (lines 145-154): `e = np.zeros((10, 1)); e[j] = 1.0`.
numpy bounds-checks the assignment, raising `IndexError` for `j > 9`. -/
def vectorized_digit (j : Nat) : Except LoadErr (List Rat) :=
  let e : List Rat := List.replicate 10 0
  if j < 10 then .ok (e.set j 1) else .error .indexErr

/-- `mnist_load` (lines 130-143): run both decoders with the same count,
then expand each label row (a singleton produced by `reshape((n, 1))`;
`label.headD 0` extracts the single byte, matching numpy's fancy-index
assignment `e[label] = 1.0`) into its one-hot vector.  Exceptions from
either decoder or from `vectorized_digit` propagate. -/
def mnist_load (imageSrc labelsSrc : List Nat) (n_images : Option Nat) :
    Except LoadErr (List (List Nat) × List (List Rat)) := do
  let images ← loadImages imageSrc n_images
  let labels ← loadLabels labelsSrc n_images
  let vectorized_labels ← labels.mapM (fun label => vectorized_digit (label.headD 0))
  return (images, vectorized_labels)

/-- Big-endian 4-byte encoding of a value, for building test streams. -/
def be4 (v : Nat) : List Nat :=
  [v / 16777216 % 256, v / 65536 % 256, v / 256 % 256, v % 256]

/-- An IDX image stream: magic `0x00000803` big-endian (bytes 0,0,8,3),
then count, rows, cols big-endian, then the data section. -/
def mkImageStream (count rows cols : Nat) (data : List Nat) : List Nat :=
  0 :: 0 :: 8 :: 3 :: (be4 count ++ (be4 rows ++ (be4 cols ++ data)))

/-- An IDX label stream: magic `0x00000801` big-endian (bytes 0,0,8,1),
then count big-endian, then one byte per label. -/
def mkLabelStream (count : Nat) (data : List Nat) : List Nat :=
  0 :: 0 :: 8 :: 1 :: (be4 count ++ data)

lemma readBE4_be4 (v : Nat) (hv : v < 4294967296) (r : List Nat) :
    readBE4 (be4 v ++ r) = some (v, r) := by
  simp only [be4, List.cons_append, List.nil_append, readBE4]
  congr 1
  congr 1
  omega

lemma chunksOf_length (k n : Nat) (l : List Nat) :
    (chunksOf k n l).length = n := by
  induction n generalizing l with
  | zero => simp [chunksOf]
  | succ m ih => simp [chunksOf, ih]

lemma chunksOf_mem_length (k n : Nat) (l : List Nat) (hl : l.length = n * k)
    (r : List Nat) (hr : r ∈ chunksOf k n l) : r.length = k := by
  induction n generalizing l with
  | zero => simp [chunksOf] at hr
  | succ m ih =>
    have hmul : (m + 1) * k = m * k + k := by ring
    simp only [chunksOf, List.mem_cons] at hr
    rcases hr with rfl | hr
    · rw [List.length_take]
      omega
    · exact ih (l.drop k) (by rw [List.length_drop]; omega) hr

lemma chunksOf_getElem? (k n i : Nat) (l : List Nat) (hi : i < n) :
    (chunksOf k n l)[i]? = some ((l.drop (i * k)).take k) := by
  induction n generalizing i l with
  | zero => omega
  | succ m ih =>
    cases i with
    | zero => simp [chunksOf]
    | succ j =>
      have hj : j < m := by omega
      simp only [chunksOf, List.getElem?_cons_succ]
      rw [ih j (l.drop k) hj, List.drop_drop]
      congr 2
      ring_nf

lemma loadImages_mk (c rows cols : Nat) (n? : Option Nat) (data : List Nat)
    (hc : c < 4294967296) :
    loadImages (mkImageStream c rows cols data) n? =
      match n? with
      | none => loadImagesRest c (be4 rows ++ (be4 cols ++ data))
      | some m =>
        if m > c then .error (.nameErr (.cannotRead m))
        else loadImagesRest m (be4 rows ++ (be4 cols ++ data)) := by
  simp only [loadImages, mkImageStream, readLE4, readBE4_be4 c hc]
  norm_num

lemma loadImagesRest_mk (m rows cols : Nat) (data : List Nat)
    (hr : rows < 4294967296) (hcl : cols < 4294967296) :
    loadImagesRest m (be4 rows ++ (be4 cols ++ data)) =
      if rows ≠ 28 ∨ cols ≠ 28 then .error (.nameErr .badDims)
      else if (data.take (m * rows * cols)).length = m * (rows * cols) then
        .ok (chunksOf (rows * cols) m (data.take (m * rows * cols)))
      else .error .valueErr := by
  simp only [loadImagesRest, readBE4_be4 rows hr, readBE4_be4 cols hcl]

lemma loadImages_ok (c n : Nat) (data : List Nat) (hc : c < 4294967296)
    (hn : n ≤ c) (hd : n * 784 ≤ data.length) :
    loadImages (mkImageStream c 28 28 data) (some n) =
      .ok (chunksOf 784 n (data.take (n * 784))) := by
  rw [loadImages_mk c 28 28 (some n) data hc]
  simp only
  rw [if_neg (by omega)]
  rw [loadImagesRest_mk n 28 28 data (by norm_num) (by norm_num)]
  norm_num
  have h : n * 28 * 28 = n * 784 := by ring
  rw [h, if_pos (by omega)]

lemma loadLabels_mk (c : Nat) (n? : Option Nat) (data : List Nat) (hc : c < 4294967296) :
    loadLabels (mkLabelStream c data) n? =
      match n? with
      | none => loadLabelsRest c data
      | some m =>
        if m > c then .error (.nameErr (.cannotRead m))
        else loadLabelsRest m data := by
  simp only [loadLabels, mkLabelStream, readLE4, readBE4_be4 c hc]
  norm_num

lemma loadLabelsRest_ok (m : Nat) (data : List Nat) (hd : m ≤ data.length) :
    loadLabelsRest m data = .ok (chunksOf 1 m (data.take m)) := by
  simp only [loadLabelsRest, Nat.mul_one]
  rw [List.length_take, if_pos (by omega)]

lemma loadLabels_ok (c n : Nat) (data : List Nat) (hc : c < 4294967296)
    (hn : n ≤ c) (hd : n ≤ data.length) :
    loadLabels (mkLabelStream c data) (some n) = .ok (chunksOf 1 n (data.take n)) := by
  rw [loadLabels_mk c (some n) data hc]
  simp only
  rw [if_neg (by omega), loadLabelsRest_ok n data hd]

end Mnist

namespace Mnist

/-- Claim C1: for every valid image stream with rows = cols = 28 and every
requested count `n ≤ declaredCount` with at least `n * 784` data bytes
present, `loadImages` returns exactly `n` records of exactly 784 bytes
each, and record `i` is byte-for-byte the `i`-th contiguous 784-byte
chunk of the data section in stream order. -/
theorem C1_loadImages_records (c n : Nat) (data : List Nat)
    (hc : c < 4294967296) (hn : n ≤ c) (hd : n * 784 ≤ data.length) :
    ∃ out, loadImages (mkImageStream c 28 28 data) (some n) = .ok out ∧
      out.length = n ∧ (∀ r ∈ out, r.length = 784) ∧
      ∀ i, i < n → out[i]? = some ((data.drop (i * 784)).take 784) := by
  refine ⟨chunksOf 784 n (data.take (n * 784)), loadImages_ok c n data hc hn hd,
    chunksOf_length _ _ _, ?_, ?_⟩
  · intro r hr
    exact chunksOf_mem_length 784 n _ (by rw [List.length_take]; omega) r hr
  · intro i hi
    rw [chunksOf_getElem? 784 n i _ hi, List.drop_take, List.take_take]
    have h1 : (i + 1) * 784 ≤ n * 784 := Nat.mul_le_mul_right 784 (by omega)
    have h2 : (i + 1) * 784 = i * 784 + 784 := by ring
    congr 2
    omega

/-- Claim C3: for every label value `j ≤ 9`, `vectorized_digit` produces a
10-length vector whose only 1.0 sits at index `j` with 0.0 elsewhere, and
for every `j > 9` it fails (numpy `IndexError`, the source's realization of
`LabelOutOfRange`). -/
theorem C3_vectorized_digit_onehot (j : Nat) :
    (j ≤ 9 → ∃ v, vectorized_digit j = .ok v ∧ v.length = 10 ∧ v[j]? = some 1 ∧
      ∀ i, i < 10 → i ≠ j → v[i]? = some 0) ∧
    (9 < j → vectorized_digit j = .error .indexErr) := by
  constructor
  · intro hj
    refine ⟨(List.replicate 10 (0:Rat)).set j 1, ?_, by simp, ?_, ?_⟩
    · simp only [vectorized_digit]
      rw [if_pos (by omega)]
    · rw [List.getElem?_set]
      simp
      omega
    · intro i hi hij
      rw [List.getElem?_set, if_neg (by omega), List.getElem?_replicate, if_pos hi]
  · intro hj
    simp only [vectorized_digit]
    rw [if_neg (by omega)]

/-- Counterexample for C4 as stated: two streams with different wrong magic
numbers (big-endian 0x00000801 and 0x00000802) produce IDENTICAL errors, so
the error cannot identify the observed (vs. expected) magic number; the
surfaced exception is the finally block's `NameError` masking the constant
'unexpected magic number' message, not an `InvalidFormat` error carrying
expected/observed values. -/
theorem C4_counterexample :
    loadImages ([0, 0, 8, 1] ++ List.replicate 20 0) (some 1) =
      loadImages ([0, 0, 8, 2] ++ List.replicate 20 0) (some 1) ∧
    loadImages ([0, 0, 8, 1] ++ List.replicate 20 0) (some 1) =
      .error (.nameErr .badMagic) := ⟨rfl, rfl⟩

/-- Claim C4 (amended): for every stream whose first 4 bytes, read as a
big-endian unsigned 32-bit integer, differ from the expected magic
(0x00000803 for images, 0x00000801 for labels), the decoder fails at the
magic check - with the constant-message magic exception masked by the
finally block's `NameError`, carrying neither expected nor observed value -
and performs no further parsing of the stream (the result is the same for
every remainder `rest` and every requested count). -/
theorem C4_amended_bad_magic (b0 b1 b2 b3 : Nat) (h0 : b0 < 256) (h1 : b1 < 256)
    (h2 : b2 < 256) (h3 : b3 < 256) (rest restL : List Nat) (n? : Option Nat) :
    (((b0 * 256 + b1) * 256 + b2) * 256 + b3 ≠ 0x00000803 →
      loadImages (b0 :: b1 :: b2 :: b3 :: rest) n? = .error (.nameErr .badMagic)) ∧
    (((b0 * 256 + b1) * 256 + b2) * 256 + b3 ≠ 0x00000801 →
      loadLabels (b0 :: b1 :: b2 :: b3 :: restL) n? = .error (.nameErr .badMagic)) := by
  constructor <;> intro h
  · have hle : ((b3 * 256 + b2) * 256 + b1) * 256 + b0 ≠ 0x03080000 := by omega
    simp only [loadImages, readLE4]
    rw [if_pos hle]
  · have hle : ((b3 * 256 + b2) * 256 + b1) * 256 + b0 ≠ 0x01080000 := by omega
    simp only [loadLabels, readLE4]
    rw [if_pos hle]

/-- Counterexample for C5 as stated: streams declaring 1 and 2 available
entries yield IDENTICAL errors for requested count 5, so the error does not
carry the available count (the source message carries only the requested
count), and the surfaced exception is the finally block's `NameError`. -/
theorem C5_counterexample :
    loadImages (mkImageStream 1 28 28 []) (some 5) =
      loadImages (mkImageStream 2 28 28 []) (some 5) ∧
    loadImages (mkImageStream 1 28 28 []) (some 5) =
      .error (.nameErr (.cannotRead 5)) ∧
    loadLabels (mkLabelStream 1 []) (some 5) =
      .error (.nameErr (.cannotRead 5)) := ⟨rfl, rfl, rfl⟩

/-- Claim C5 (amended): for both decoders, requesting `m` greater than the
declared count `c` fails at the count check - with the count exception
(carrying only the requested count) masked by the finally block's
`NameError` - regardless of the rest of the stream; and when no explicit
count is passed, the declared count `c` is used as the requested count
(the decode returns exactly `c` records when enough data is present). -/
theorem C5_amended_insufficient_data (c m : Nat) (hc : c < 4294967296)
    (rest restL data dataL : List Nat) :
    (m > c → loadImages (0 :: 0 :: 8 :: 3 :: (be4 c ++ rest)) (some m) =
        .error (.nameErr (.cannotRead m))) ∧
    (m > c → loadLabels (0 :: 0 :: 8 :: 1 :: (be4 c ++ restL)) (some m) =
        .error (.nameErr (.cannotRead m))) ∧
    (c * 784 ≤ data.length →
      ∃ out, loadImages (mkImageStream c 28 28 data) none = .ok out ∧
        out.length = c) ∧
    (c ≤ dataL.length →
      ∃ outL, loadLabels (mkLabelStream c dataL) none = .ok outL ∧
        outL.length = c) := by
  refine ⟨?_, ?_, ?_, ?_⟩
  · intro hm
    simp only [loadImages, readLE4, readBE4_be4 c hc]
    rw [if_neg (by norm_num), if_pos hm]
  · intro hm
    simp only [loadLabels, readLE4, readBE4_be4 c hc]
    rw [if_neg (by norm_num), if_pos hm]
  · intro hd
    rw [loadImages_mk c 28 28 none data hc]
    simp only
    rw [loadImagesRest_mk c 28 28 data (by norm_num) (by norm_num)]
    rw [if_neg (by simp)]
    have h : c * 28 * 28 = c * 784 := by ring
    have h2 : c * (28 * 28) = c * 784 := by ring
    rw [h, h2, List.length_take, if_pos (by omega)]
    exact ⟨_, rfl, chunksOf_length _ _ _⟩
  · intro hd
    rw [loadLabels_mk c none dataL hc]
    simp only
    rw [loadLabelsRest_ok c dataL hd]
    exact ⟨_, rfl, chunksOf_length _ _ _⟩

/-- Counterexample for C6 as stated: an image stream with rows = cols = 5,
declared count 1 and requested count 2 fails with the count-check error,
NOT with the dimension error - the requested-count check (source lines
76-80) runs before the rows/cols reads and the dimension check (lines
83-87), contrary to the spec's step ordering. -/
theorem C6_counterexample :
    loadImages (mkImageStream 1 5 5 (List.replicate 25 0)) (some 2) =
      .error (.nameErr (.cannotRead 2)) ∧
    LoadErr.nameErr (.cannotRead 2) ≠ .nameErr .badDims := ⟨rfl, by decide⟩

/-- Claim C6 (amended): the count check precedes the dimension check: for
an image stream with rows ≠ 28 or cols ≠ 28, `loadImages` fails with the
dimension error when the requested count is within the declared count, but
with the count error when the requested count exceeds the declared count. -/
theorem C6_amended_count_before_dims (c rows cols m : Nat) (hc : c < 4294967296)
    (hr : rows < 4294967296) (hcl : cols < 4294967296) (data : List Nat)
    (hdim : rows ≠ 28 ∨ cols ≠ 28) :
    (m ≤ c → loadImages (mkImageStream c rows cols data) (some m) =
        .error (.nameErr .badDims)) ∧
    (m > c → loadImages (mkImageStream c rows cols data) (some m) =
        .error (.nameErr (.cannotRead m))) := by
  constructor <;> intro hm
  · rw [loadImages_mk c rows cols (some m) data hc]
    simp only
    rw [if_neg (by omega), loadImagesRest_mk m rows cols data hr hcl, if_pos hdim]
  · rw [loadImages_mk c rows cols (some m) data hc]
    simp only
    rw [if_pos hm]

/-- Claim C7: for every image stream whose data section holds fewer than
`requestedCount * 784` bytes after the header, `loadImages` fails with the
reshape `ValueError` (the source's realization of `TruncatedStream`), and
likewise `loadLabels` when fewer than `requestedCount` label bytes remain;
exactly `requestedCount * 784` data bytes suffice for success. -/
theorem C7_truncated_stream (c n : Nat) (data dataL : List Nat) (hc : c < 4294967296)
    (hn : n ≤ c) :
    (data.length < n * 784 →
      loadImages (mkImageStream c 28 28 data) (some n) = .error .valueErr) ∧
    (dataL.length < n →
      loadLabels (mkLabelStream c dataL) (some n) = .error .valueErr) ∧
    (n * 784 ≤ data.length →
      ∃ out, loadImages (mkImageStream c 28 28 data) (some n) = .ok out) := by
  refine ⟨?_, ?_, ?_⟩
  · intro hd
    rw [loadImages_mk c 28 28 (some n) data hc]
    simp only
    rw [if_neg (by omega), loadImagesRest_mk n 28 28 data (by norm_num) (by norm_num)]
    rw [if_neg (by simp)]
    have h : n * 28 * 28 = n * 784 := by ring
    have h2 : n * (28 * 28) = n * 784 := by ring
    rw [h, h2, List.length_take, if_neg (by omega)]
  · intro hd
    rw [loadLabels_mk c (some n) dataL hc]
    simp only
    rw [if_neg (by omega)]
    simp only [loadLabelsRest, Nat.mul_one]
    rw [List.length_take, if_neg (by omega)]
  · intro hd
    exact ⟨_, loadImages_ok c n data hc hn hd⟩

/-- Claim C9: requesting count 0 from `mnist_load` on valid image and label
streams succeeds without error and yields an empty dataset. -/
theorem C9_zero_request_empty (c cL : Nat) (hc : c < 4294967296) (hcL : cL < 4294967296)
    (data dataL : List Nat) :
    mnist_load (mkImageStream c 28 28 data) (mkLabelStream cL dataL) (some 0) =
      .ok ([], []) := by
  have h1 : loadImages (mkImageStream c 28 28 data) (some 0) = .ok [] := by
    have h := loadImages_ok c 0 data hc (by omega) (by simp)
    simpa [chunksOf] using h
  have h2 : loadLabels (mkLabelStream cL dataL) (some 0) = .ok [] := by
    have h := loadLabels_ok cL 0 dataL hcL (by omega) (by simp)
    simpa [chunksOf] using h
  unfold mnist_load
  rw [h1, h2]
  rfl


lemma vectorized_digit_ok_inv (j : Nat) (v : List Rat)
    (h : vectorized_digit j = .ok v) : v.length = 10 := by
  simp only [vectorized_digit] at h
  by_cases hj : j < 10
  · rw [if_pos hj] at h
    cases h
    simp
  · rw [if_neg hj] at h
    cases h

lemma mapM_ok_inv (f : List Nat → Except LoadErr (List Rat)) :
    ∀ (l : List (List Nat)) (out : List (List Rat)), l.mapM f = .ok out →
      out.length = l.length ∧ ∀ b, b ∈ out → ∃ a, a ∈ l ∧ f a = .ok b := by
  intro l
  induction l with
  | nil =>
    intro out h
    rw [List.mapM_nil] at h
    cases h
    simp
  | cons a t ih =>
    intro out h
    rw [List.mapM_cons] at h
    cases hfa : f a with
    | error e =>
      rw [hfa] at h
      cases h
    | ok b =>
      rw [hfa] at h
      cases hmt : t.mapM f with
      | error e =>
        rw [hmt] at h
        cases h
      | ok bs =>
        rw [hmt] at h
        have h2 : (Except.ok (b :: bs) : Except LoadErr (List (List Rat))) =
            .ok out := h
        cases h2
        obtain ⟨hlen, hmem⟩ := ih bs hmt
        constructor
        · simp [hlen]
        · intro b2 hb2
          rcases List.mem_cons.mp hb2 with rfl | hb2
          · exact ⟨a, List.mem_cons_self a t, hfa⟩
          · obtain ⟨a2, ha2, hfa2⟩ := hmem b2 hb2
            exact ⟨a2, List.mem_cons_of_mem a ha2, hfa2⟩

lemma loadImagesRest_ok_inv (m : Nat) (s2 : List Nat) (out : List (List Nat))
    (h : loadImagesRest m s2 = .ok out) :
    out.length = m ∧ ∀ r, r ∈ out → r.length = 784 := by
  unfold loadImagesRest at h
  split at h
  · cases h
  · split at h
    · cases h
    · split at h
      · cases h
      · rename_i hdim
        push_neg at hdim
        obtain ⟨hr, hc⟩ := hdim
        subst hr
        subst hc
        split at h
        · rename_i hlen
          cases h
          refine ⟨chunksOf_length _ _ _, ?_⟩
          intro r hrr
          have h784 : (28 : Nat) * 28 = 784 := by norm_num
          rw [h784] at hlen hrr
          exact chunksOf_mem_length 784 m _ hlen r hrr
        · cases h

lemma loadImages_some_ok_inv (s : List Nat) (m : Nat) (out : List (List Nat))
    (h : loadImages s (some m) = .ok out) :
    out.length = m ∧ ∀ r, r ∈ out → r.length = 784 := by
  unfold loadImages at h
  split at h
  · cases h
  · split at h
    · cases h
    · split at h
      · cases h
      · simp only at h
        split at h
        · cases h
        · exact loadImagesRest_ok_inv _ _ _ h

lemma loadLabels_some_ok_inv (s : List Nat) (m : Nat) (out : List (List Nat))
    (h : loadLabels s (some m) = .ok out) : out.length = m := by
  unfold loadLabels at h
  split at h
  · cases h
  · split at h
    · cases h
    · split at h
      · cases h
      · simp only at h
        split at h
        · cases h
        · unfold loadLabelsRest at h
          split at h
          · cases h
            exact chunksOf_length _ _ _
          · cases h

/-- Claim C8: a decode that yields a result at all yields a complete one:
whenever `mnist_load` succeeds for requested count `m`, the dataset has
exactly `m` image records of 784 bytes and `m` one-hot vectors of length
10 - never a partial, truncated or uninitialized dataset.  (All failure
paths return an error: the finally block cannot return a value after an
exception because `res` is then unbound, and a short read fails the
reshape.) -/
theorem C8_no_partial_results (imgS lblS : List Nat) (m : Nat) (imgs : List (List Nat))
    (lbls : List (List Rat))
    (h : mnist_load imgS lblS (some m) = .ok (imgs, lbls)) :
    imgs.length = m ∧ lbls.length = m ∧ (∀ r, r ∈ imgs → r.length = 784) ∧
      ∀ v, v ∈ lbls → v.length = 10 := by
  unfold mnist_load at h
  cases hI : loadImages imgS (some m) with
  | error e =>
    rw [hI] at h
    cases h
  | ok imgs2 =>
    rw [hI] at h
    replace h : ((do
        let labels ← loadLabels lblS (some m)
        let vectorized_labels ← labels.mapM
          (fun (label : List Nat) => vectorized_digit (label.headD 0))
        return (imgs2, vectorized_labels)) :
        Except LoadErr (List (List Nat) × List (List Rat))) =
        .ok (imgs, lbls) := h
    cases hL : loadLabels lblS (some m) with
    | error e =>
      rw [hL] at h
      cases h
    | ok labels =>
      rw [hL] at h
      replace h : ((do
          let vectorized_labels ← labels.mapM
            (fun (label : List Nat) => vectorized_digit (label.headD 0))
          return (imgs2, vectorized_labels)) :
          Except LoadErr (List (List Nat) × List (List Rat))) =
          .ok (imgs, lbls) := h
      cases hM : labels.mapM (fun label => vectorized_digit (label.headD 0)) with
      | error e =>
        rw [hM] at h
        cases h
      | ok vlabels =>
        rw [hM] at h
        replace h : (Except.ok (imgs2, vlabels) :
            Except LoadErr (List (List Nat) × List (List Rat))) =
            .ok (imgs, lbls) := h
        rw [Except.ok.injEq, Prod.mk.injEq] at h
        obtain ⟨h5, h6⟩ := h
        obtain ⟨h1, h2⟩ := loadImages_some_ok_inv imgS m imgs2 hI
        have h3 := loadLabels_some_ok_inv lblS m labels hL
        obtain ⟨h4, hmem⟩ := mapM_ok_inv _ labels vlabels hM
        subst h5
        subst h6
        refine ⟨h1, by omega, h2, ?_⟩
        intro v hv
        obtain ⟨a, _, hva⟩ := hmem v hv
        exact vectorized_digit_ok_inv _ v hva

/-- Claim C2: end-to-end scenario: a valid image stream (magic 0x00000803,
count 2, rows = cols = 28, 2 * 784 arbitrary pixel bytes) and a matching
label stream (magic 0x00000801, count 2, bytes [3, 7]); `mnist_load` with
requested count 2 succeeds, the two decoder outputs zip positionally into
a dataset of length 2, and the second label's one-hot vector has its 1.0
at index 7.  (`mnist_load` returns the two positionally-aligned sequences
whose zip is that Dataset.) -/
theorem C2_end_to_end (data : List Nat) (h : data.length = 1568) :
    ∃ imgs lbls,
      mnist_load (mkImageStream 2 28 28 data) (mkLabelStream 2 [3, 7]) (some 2) =
        .ok (imgs, lbls) ∧
      imgs = chunksOf 784 2 data ∧
      lbls = [(List.replicate 10 (0:Rat)).set 3 1,
              (List.replicate 10 (0:Rat)).set 7 1] ∧
      (imgs.zip lbls).length = 2 ∧
      lbls[1]? = some ((List.replicate 10 (0:Rat)).set 7 1) ∧
      ((List.replicate 10 (0:Rat)).set 7 1)[7]? = some 1 := by
  have hI : loadImages (mkImageStream 2 28 28 data) (some 2) =
      .ok (chunksOf 784 2 data) := by
    have h2 := loadImages_ok 2 2 data (by norm_num) le_rfl (by omega)
    rwa [List.take_of_length_le (by omega)] at h2
  have hL : loadLabels (mkLabelStream 2 [3, 7]) (some 2) = .ok [[3], [7]] := by
    have h2 := loadLabels_ok 2 2 [3, 7] (by norm_num) le_rfl (by simp)
    simpa [chunksOf] using h2
  refine ⟨chunksOf 784 2 data,
    [(List.replicate 10 (0:Rat)).set 3 1, (List.replicate 10 (0:Rat)).set 7 1],
    ?_, rfl, rfl, ?_, by decide, by decide⟩
  · unfold mnist_load
    rw [hI, hL]
    rfl
  · rw [List.length_zip, chunksOf_length]
    rfl


lemma readLE4_take (k : Nat) (hk : 4 ≤ k) (s : List Nat) :
    readLE4 (s.take k) = (readLE4 s).map (fun p => (p.1, p.2.take (k - 4))) := by
  match s with
  | [] => simp [readLE4]
  | [a] =>
    rw [List.take_of_length_le (by simp only [List.length_cons, List.length_nil]; omega)]
    simp [readLE4]
  | [a, b] =>
    rw [List.take_of_length_le (by simp only [List.length_cons, List.length_nil]; omega)]
    simp [readLE4]
  | [a, b, c] =>
    rw [List.take_of_length_le (by simp only [List.length_cons, List.length_nil]; omega)]
    simp [readLE4]
  | a :: b :: c :: d :: rest =>
    obtain ⟨m, rfl⟩ : ∃ m, k = 4 + m := ⟨k - 4, by omega⟩
    rw [List.take_add]
    simp [readLE4]

lemma readBE4_take (k : Nat) (hk : 4 ≤ k) (s : List Nat) :
    readBE4 (s.take k) = (readBE4 s).map (fun p => (p.1, p.2.take (k - 4))) := by
  match s with
  | [] => simp [readBE4]
  | [a] =>
    rw [List.take_of_length_le (by simp only [List.length_cons, List.length_nil]; omega)]
    simp [readBE4]
  | [a, b] =>
    rw [List.take_of_length_le (by simp only [List.length_cons, List.length_nil]; omega)]
    simp [readBE4]
  | [a, b, c] =>
    rw [List.take_of_length_le (by simp only [List.length_cons, List.length_nil]; omega)]
    simp [readBE4]
  | a :: b :: c :: d :: rest =>
    obtain ⟨m, rfl⟩ : ∃ m, k = 4 + m := ⟨k - 4, by omega⟩
    rw [List.take_add]
    simp [readBE4]

lemma loadImagesRest_take (n : Nat) (s2 : List Nat) :
    loadImagesRest n (s2.take (8 + n * 784)) = loadImagesRest n s2 := by
  unfold loadImagesRest
  rw [readBE4_take (8 + n * 784) (by omega) s2]
  rcases h2 : readBE4 s2 with _ | ⟨rows, s3⟩
  · rfl
  · simp only [Option.map_some']
    rw [readBE4_take (8 + n * 784 - 4) (by omega) s3]
    rcases h3 : readBE4 s3 with _ | ⟨cols, s4⟩
    · rfl
    · simp only [Option.map_some']
      by_cases hdim : rows ≠ 28 ∨ cols ≠ 28
      · rw [if_pos hdim, if_pos hdim]
      · rw [if_neg hdim, if_neg hdim]
        push_neg at hdim
        obtain ⟨hr, hc⟩ := hdim
        subst hr
        subst hc
        rw [List.take_take]
        have he : n * 28 * 28 ⊓ (8 + n * 784 - 4 - 4) = n * 28 * 28 := by
          have h : n * 28 * 28 = n * 784 := by ring
          omega
        rw [he]

lemma loadImages_take (n : Nat) (s : List Nat) :
    loadImages (s.take (16 + n * 784)) (some n) = loadImages s (some n) := by
  unfold loadImages
  rw [readLE4_take (16 + n * 784) (by omega) s]
  rcases h1 : readLE4 s with _ | ⟨magic, s1⟩
  · rfl
  · simp only [Option.map_some']
    by_cases hm : magic ≠ 0x03080000
    · rw [if_pos hm, if_pos hm]
    · rw [if_neg hm, if_neg hm]
      rw [readBE4_take (16 + n * 784 - 4) (by omega) s1]
      rcases h2 : readBE4 s1 with _ | ⟨c, s2⟩
      · rfl
      · simp only [Option.map_some']
        by_cases hgt : n > c
        · rw [if_pos hgt, if_pos hgt]
        · rw [if_neg hgt, if_neg hgt]
          have he : 16 + n * 784 - 4 - 4 = 8 + n * 784 := by omega
          rw [he, loadImagesRest_take]

lemma loadLabels_take (n : Nat) (s : List Nat) :
    loadLabels (s.take (8 + n)) (some n) = loadLabels s (some n) := by
  unfold loadLabels
  rw [readLE4_take (8 + n) (by omega) s]
  rcases h1 : readLE4 s with _ | ⟨magic, s1⟩
  · rfl
  · simp only [Option.map_some']
    by_cases hm : magic ≠ 0x01080000
    · rw [if_pos hm, if_pos hm]
    · rw [if_neg hm, if_neg hm]
      rw [readBE4_take (8 + n - 4) (by omega) s1]
      rcases h2 : readBE4 s1 with _ | ⟨c, s2⟩
      · rfl
      · simp only [Option.map_some']
        by_cases hgt : n > c
        · rw [if_pos hgt, if_pos hgt]
        · rw [if_neg hgt, if_neg hgt]
          unfold loadLabelsRest
          rw [List.take_take]
          have he : n ⊓ (8 + n - 4 - 4) = n := by omega
          rw [he]

/-- Claim C10: decoder output depends only on the consumed prefix: two image
streams agreeing on their first `16 + n * 784` bytes give identical
`loadImages` results for count `n`, and two label streams agreeing on their
first `8 + n` bytes give identical `loadLabels` results; in particular
trailing bytes after the consumed region are ignored and never cause an
error. -/
theorem C10_prefix_determined (s1 s2 t1 t2 : List Nat) (n nl : Nat)
    (himg : s1.take (16 + n * 784) = s2.take (16 + n * 784))
    (hlbl : t1.take (8 + nl) = t2.take (8 + nl)) :
    loadImages s1 (some n) = loadImages s2 (some n) ∧
    loadLabels t1 (some nl) = loadLabels t2 (some nl) := by
  constructor
  · rw [← loadImages_take n s1, ← loadImages_take n s2, himg]
  · rw [← loadLabels_take nl t1, ← loadLabels_take nl t2, hlbl]


/-- Witness for C1 at count 2, request 1, 1568 data bytes. -/
theorem C1_witness :
    ∃ out, loadImages (mkImageStream 2 28 28 (List.replicate 1568 5)) (some 1) =
        .ok out ∧
      out.length = 1 ∧ (∀ r ∈ out, r.length = 784) ∧
      ∀ i, i < 1 → out[i]? =
        some (((List.replicate 1568 5).drop (i * 784)).take 784) :=
  C1_loadImages_records 2 1 (List.replicate 1568 5) (by norm_num) (by norm_num)
    (by rw [List.length_replicate]; norm_num)

/-- Witness for C2 with all-zero pixel data. -/
theorem C2_witness :
    ∃ imgs lbls,
      mnist_load (mkImageStream 2 28 28 (List.replicate 1568 0))
          (mkLabelStream 2 [3, 7]) (some 2) = .ok (imgs, lbls) ∧
      imgs = chunksOf 784 2 (List.replicate 1568 0) ∧
      lbls = [(List.replicate 10 (0:Rat)).set 3 1,
              (List.replicate 10 (0:Rat)).set 7 1] ∧
      (imgs.zip lbls).length = 2 ∧
      lbls[1]? = some ((List.replicate 10 (0:Rat)).set 7 1) ∧
      ((List.replicate 10 (0:Rat)).set 7 1)[7]? = some 1 :=
  C2_end_to_end (List.replicate 1568 0) (by rw [List.length_replicate])

/-- Witness for C3 at j = 7 and j = 12. -/
theorem C3_witness :
    (∃ v, vectorized_digit 7 = .ok v ∧ v.length = 10 ∧ v[7]? = some 1 ∧
      ∀ i, i < 10 → i ≠ 7 → v[i]? = some 0) ∧
    vectorized_digit 12 = .error .indexErr :=
  ⟨(C3_vectorized_digit_onehot 7).1 (by norm_num), (C3_vectorized_digit_onehot 12).2 (by norm_num)⟩

/-- Witness for C4 (amended) on concrete wrong-magic streams. -/
theorem C4_witness :
    loadImages (0 :: 0 :: 8 :: 1 :: List.replicate 20 0) (some 1) =
      .error (.nameErr .badMagic) ∧
    loadLabels (0 :: 0 :: 8 :: 3 :: List.replicate 20 0) (some 1) =
      .error (.nameErr .badMagic) :=
  ⟨(C4_amended_bad_magic 0 0 8 1 (by norm_num) (by norm_num) (by norm_num) (by norm_num)
      (List.replicate 20 0) (List.replicate 20 0) (some 1)).1 (by norm_num),
   (C4_amended_bad_magic 0 0 8 3 (by norm_num) (by norm_num) (by norm_num) (by norm_num)
      (List.replicate 20 0) (List.replicate 20 0) (some 1)).2 (by norm_num)⟩

/-- Witness for C5 (amended) at declared count 1, request 2, and at default
count. -/
theorem C5_witness :
    loadImages (0 :: 0 :: 8 :: 3 :: (be4 1 ++ [])) (some 2) =
      .error (.nameErr (.cannotRead 2)) ∧
    loadLabels (0 :: 0 :: 8 :: 1 :: (be4 1 ++ [])) (some 2) =
      .error (.nameErr (.cannotRead 2)) ∧
    (∃ out, loadImages (mkImageStream 1 28 28 (List.replicate 784 0)) none =
        .ok out ∧ out.length = 1) ∧
    (∃ outL, loadLabels (mkLabelStream 1 [4]) none = .ok outL ∧
        outL.length = 1) := by
  obtain ⟨a, b, c, d⟩ :=
    C5_amended_insufficient_data 1 2 (by norm_num) [] [] (List.replicate 784 0) [4]
  exact ⟨a (by norm_num), b (by norm_num),
    c (by rw [List.length_replicate]), d (by simp)⟩

/-- Witness for C6 (amended) at a 5x5 stream with requests 1 and 2. -/
theorem C6_witness :
    loadImages (mkImageStream 1 5 5 []) (some 1) = .error (.nameErr .badDims) ∧
    loadImages (mkImageStream 1 5 5 []) (some 2) =
      .error (.nameErr (.cannotRead 2)) :=
  ⟨(C6_amended_count_before_dims 1 5 5 1 (by norm_num) (by norm_num) (by norm_num) []
      (by norm_num)).1 (by norm_num),
   (C6_amended_count_before_dims 1 5 5 2 (by norm_num) (by norm_num) (by norm_num) []
      (by norm_num)).2 (by norm_num)⟩

/-- Witness for C7: truncated image and label streams, and a complete one. -/
theorem C7_witness :
    loadImages (mkImageStream 1 28 28 (List.replicate 10 0)) (some 1) =
      .error .valueErr ∧
    loadLabels (mkLabelStream 2 [5]) (some 2) = .error .valueErr ∧
    ∃ out, loadImages (mkImageStream 1 28 28 (List.replicate 784 0)) (some 1) =
      .ok out :=
  ⟨(C7_truncated_stream 1 1 (List.replicate 10 0) [5] (by norm_num) le_rfl).1
      (by rw [List.length_replicate]; norm_num),
   (C7_truncated_stream 2 2 (List.replicate 10 0) [5] (by norm_num) le_rfl).2.1 (by simp),
   (C7_truncated_stream 1 1 (List.replicate 784 0) [] (by norm_num) le_rfl).2.2
      (by rw [List.length_replicate])⟩

set_option maxRecDepth 40000 in
/-- Witness for C8 on a concrete successful load of one record. -/
theorem C8_witness :
    [List.replicate 784 9].length = 1 ∧
    [(List.replicate 10 (0:Rat)).set 4 1].length = 1 ∧
    (∀ r, r ∈ [List.replicate 784 9] → r.length = 784) ∧
    (∀ v, v ∈ [(List.replicate 10 (0:Rat)).set 4 1] → v.length = 10) :=
  C8_no_partial_results (mkImageStream 1 28 28 (List.replicate 784 9)) (mkLabelStream 1 [4]) 1
    [List.replicate 784 9] [(List.replicate 10 (0:Rat)).set 4 1] (by rfl)

/-- Witness for C9 at declared counts 5 and 7. -/
theorem C9_witness :
    mnist_load (mkImageStream 5 28 28 [1, 2, 3]) (mkLabelStream 7 [9]) (some 0) =
      .ok ([], []) :=
  C9_zero_request_empty 5 7 (by norm_num) (by norm_num) [1, 2, 3] [9]

/-- Witness for C10: appending junk bytes after the consumed region does not
change either decoder's result. -/
theorem C10_witness :
    loadImages (mkImageStream 1 28 28 []) (some 0) =
      loadImages (mkImageStream 1 28 28 [] ++ [9, 9, 9]) (some 0) ∧
    loadLabels (mkLabelStream 1 [5]) (some 1) =
      loadLabels (mkLabelStream 1 [5] ++ [7]) (some 1) :=
  C10_prefix_determined (mkImageStream 1 28 28 []) (mkImageStream 1 28 28 [] ++ [9, 9, 9])
    (mkLabelStream 1 [5]) (mkLabelStream 1 [5] ++ [7]) 0 1 (by rfl) (by rfl)

end Mnist
